import Mathlib

/-!
Verification development for the nexus-compliance backend.

The definitions below are a shallow embedding of the two core subsystems:
the compliance toggle service (`ComplianceToggleService` in the source) and
the assessment engine (`AssessmentService`).  Database tables are modelled as
explicit state (`ToggleState`, `AssessDB`); the `transaction` helper of the
database client (BEGIN / COMMIT on success / ROLLBACK on error) is modelled
by `dbTransaction`; the schema's `AFTER UPDATE` audit trigger
(`audit_compliance_config_changes` in migration 001) is modelled inside the
toggle operations.  Fallible operations return `Except`.  The randomized
stand-in evaluator of `runAssessment` is embedded deterministically by
passing the stream of `Math.random()` draws as an explicit argument, and
storage failures are injected through an explicit `FaultSpec` argument.
-/

/-- The closed set of compliance module names (`ModuleConfigMap` keys). -/
inductive ModuleName
  | gdpr
  | aiAct
  | nis2
  | iso27001
  | soc2
  | hipaa
deriving DecidableEq, Repr

def ModuleName.toStr : ModuleName → String
  | .gdpr => "gdpr"
  | .aiAct => "aiAct"
  | .nis2 => "nis2"
  | .iso27001 => "iso27001"
  | .soc2 => "soc2"
  | .hipaa => "hipaa"

/-- One module's configuration record (`ComplianceModuleConfig`): the
`enabled` flag plus the remaining named boolean feature keys of the record.
In the source this is a single JS record whose keys include `"enabled"`. -/
structure ModuleConfig where
  enabled : Bool
  features : List (String × Bool)
deriving DecidableEq, Repr

/-- Dynamic key access on the module record, as in
`(moduleConfig as Record<string, boolean>)[key]`.  The `"enabled"` key is
part of the record. -/
def ModuleConfig.getKey (m : ModuleConfig) (k : String) : Option Bool :=
  if k = "enabled" then some m.enabled else m.features.lookup k

/-- The JS `key in moduleConfig` membership test. -/
def ModuleConfig.hasKey (m : ModuleConfig) (k : String) : Bool :=
  (m.getKey k).isSome

/-- Dynamic key assignment `moduleConfig[key] = v` (only reached in the
source after the `key in moduleConfig` check). -/
def ModuleConfig.setKey (m : ModuleConfig) (k : String) (v : Bool) : ModuleConfig :=
  if k = "enabled" then { m with enabled := v }
  else { m with features := m.features.map fun p => if p.1 = k then (p.1, v) else p }

/-- The per-tenant module configuration map (`ModuleConfigMap`), with its
fixed closed key set. -/
structure ModuleConfigMap where
  gdpr : ModuleConfig
  aiAct : ModuleConfig
  nis2 : ModuleConfig
  iso27001 : ModuleConfig
  soc2 : ModuleConfig
  hipaa : ModuleConfig
deriving DecidableEq, Repr

def ModuleConfigMap.get (mc : ModuleConfigMap) : ModuleName → ModuleConfig
  | .gdpr => mc.gdpr
  | .aiAct => mc.aiAct
  | .nis2 => mc.nis2
  | .iso27001 => mc.iso27001
  | .soc2 => mc.soc2
  | .hipaa => mc.hipaa

def ModuleConfigMap.set (mc : ModuleConfigMap) (m : ModuleName) (v : ModuleConfig) :
    ModuleConfigMap :=
  match m with
  | .gdpr => { mc with gdpr := v }
  | .aiAct => { mc with aiAct := v }
  | .nis2 => { mc with nis2 := v }
  | .iso27001 => { mc with iso27001 := v }
  | .soc2 => { mc with soc2 := v }
  | .hipaa => { mc with hipaa := v }

/-- `DEFAULT_MODULE_CONFIG` from the toggle service. -/
def DEFAULT_MODULE_CONFIG : ModuleConfigMap where
  gdpr :=
    { enabled := true
      features := [("dataExport", true), ("dataErasure", true), ("consentManagement", true),
        ("dataPortability", true), ("rectification", true), ("restrictProcessing", true)] }
  aiAct :=
    { enabled := true
      features := [("riskClassification", true), ("humanOversight", true),
        ("transparencyLogging", true), ("technicalDocumentation", true),
        ("friaAssessment", true)] }
  nis2 :=
    { enabled := true
      features := [("incidentReporting", true), ("securityMonitoring", true),
        ("supplyChainSecurity", true), ("businessContinuity", true)] }
  iso27001 :=
    { enabled := true
      features := [("controlAssessment", true), ("auditTrail", true),
        ("riskManagement", true), ("accessControl", true)] }
  soc2 :=
    { enabled := false
      features := [("securityControls", false), ("availabilityControls", false),
        ("confidentialityControls", false)] }
  hipaa :=
    { enabled := false
      features := [("phiProtection", false), ("auditControls", false),
        ("accessManagement", false)] }

/-- One tenant's `ComplianceConfig` row (the fields the core logic reads). -/
structure ComplianceConfig where
  masterEnabled : Bool
  moduleConfig : ModuleConfigMap
deriving DecidableEq, Repr

/-- The config inserted by `createDefaultConfig` (master enabled, default map). -/
def defaultComplianceConfig : ComplianceConfig where
  masterEnabled := true
  moduleConfig := DEFAULT_MODULE_CONFIG

/-- Audit action kinds of `compliance_config_audit`. -/
inductive AuditAction
  | CREATE
  | UPDATE
  | TOGGLE_MASTER
  | TOGGLE_MODULE
  | TOGGLE_FEATURE
deriving DecidableEq, Repr

/-- A `compliance_config_audit` row (the columns the claims are about). -/
structure AuditRow where
  action : AuditAction
  moduleAffected : Option String
  featureAffected : Option String
  previousValue : Option Bool
  newValue : Option Bool
deriving DecidableEq, Repr

/-- One tenant's slice of the configuration store: the (at most one)
`compliance_config` row and the `compliance_config_audit` rows. -/
structure ToggleState where
  config : Option ComplianceConfig
  audits : List AuditRow
deriving DecidableEq, Repr

/-- JS truthiness of the optional `feature` string argument: absent and the
empty string are both falsy. -/
def strTruthy : Option String → Bool
  | none => false
  | some s => !(s == "")

/-- `getConfig`: return the existing config, or create (and persist) the
default config.  No audit row is written on this creation path. -/
def getConfig (st : ToggleState) : ComplianceConfig × ToggleState :=
  match st.config with
  | some c => (c, st)
  | none => (defaultComplianceConfig, { st with config := some defaultComplianceConfig })

/-- The pure heart of `isEnabled`, applied to a loaded config: master switch
first, then the module flag, then (if a truthy feature name was supplied)
the feature key's value compared with `=== true`. -/
def configIsEnabled (config : ComplianceConfig) (m : ModuleName) (feature : Option String) :
    Bool :=
  if !config.masterEnabled then false
  else
    let moduleConfig := config.moduleConfig.get m
    if !moduleConfig.enabled then false
    else if !(strTruthy feature) then true
    else (moduleConfig.getKey (feature.getD "")) == some true

/-- `isEnabled(tenantId, module, feature?)`: loads (auto-creating) the
tenant's config and evaluates the gate. -/
def isEnabled (st : ToggleState) (m : ModuleName) (feature : Option String) : Bool :=
  configIsEnabled (getConfig st).1 m feature

structure ToggleMasterRequest where
  enabled : Bool
  reason : String
deriving DecidableEq, Repr

structure ToggleModuleRequest where
  moduleName : ModuleName
  enabled : Bool
  reason : String
  feature : Option String
deriving DecidableEq, Repr

inductive ToggleError
  | notFound
  | invalidFeature
deriving DecidableEq, Repr

/-- `toggleMaster`: create-or-update the config row under the row lock and
append audit rows.  On the update path the schema's `AFTER UPDATE` trigger
`audit_compliance_config_changes` inserts an additional `TOGGLE_MASTER` row
whenever the stored `master_enabled` value actually changed; the service then
appends its own row via `logConfigChange`.  On the create path only the
service's `CREATE` row is written (the trigger fires on UPDATE only). -/
def toggleMaster (st : ToggleState) (request : ToggleMasterRequest) :
    ComplianceConfig × ToggleState :=
  match st.config with
  | none =>
    let config : ComplianceConfig :=
      { masterEnabled := request.enabled, moduleConfig := DEFAULT_MODULE_CONFIG }
    let createRow : AuditRow :=
      { action := .CREATE, moduleAffected := some "master", featureAffected := some "enabled",
        previousValue := none, newValue := some request.enabled }
    (config, { config := some config, audits := st.audits ++ [createRow] })
  | some previousConfig =>
    let config : ComplianceConfig := { previousConfig with masterEnabled := request.enabled }
    let triggerRows : List AuditRow :=
      if previousConfig.masterEnabled = request.enabled then []
      else
        [{ action := .TOGGLE_MASTER, moduleAffected := some "master",
           featureAffected := some "enabled",
           previousValue := some previousConfig.masterEnabled,
           newValue := some request.enabled }]
    let serviceRow : AuditRow :=
      { action := .TOGGLE_MASTER, moduleAffected := some "master",
        featureAffected := some "enabled",
        previousValue := some previousConfig.masterEnabled, newValue := some request.enabled }
    (config, { config := some config, audits := st.audits ++ triggerRows ++ [serviceRow] })

/-- Shared commit tail of `toggleModule`: persist the new module map, let the
schema's `AFTER UPDATE` trigger append a generic `TOGGLE_MODULE` row when the
stored map actually changed, then append the service's `logConfigChange` row.
The source reads `previousValue` from the module record after mutating it
through a shallow copy, so it observes the new value; we read it from
`newMap` accordingly. -/
def commitModuleToggle (st : ToggleState) (previousConfig : ComplianceConfig)
    (request : ToggleModuleRequest) (newMap : ModuleConfigMap) :
    ComplianceConfig × ToggleState :=
  let config : ComplianceConfig := { previousConfig with moduleConfig := newMap }
  let triggerRows : List AuditRow :=
    if previousConfig.moduleConfig = newMap then []
    else
      [{ action := .TOGGLE_MODULE, moduleAffected := none, featureAffected := none,
         previousValue := none, newValue := none }]
  let fieldKey := if strTruthy request.feature then request.feature.getD "" else "enabled"
  let serviceRow : AuditRow :=
    { action := if strTruthy request.feature then .TOGGLE_FEATURE else .TOGGLE_MODULE,
      moduleAffected := some request.moduleName.toStr,
      featureAffected := some (match request.feature with | some s => s | none => "enabled"),
      previousValue := (newMap.get request.moduleName).getKey fieldKey,
      newValue := some request.enabled }
  (config, { config := some config, audits := st.audits ++ triggerRows ++ [serviceRow] })

/-- `toggleModule`: fails with `NotFound` when the tenant has no config row;
with a truthy `feature` it checks `feature in moduleConfig` (else
`InvalidFeature`) and assigns that key, otherwise it assigns the module's own
`enabled` flag; then commits map + audit rows in one transaction. -/
def toggleModule (st : ToggleState) (request : ToggleModuleRequest) :
    Except ToggleError (ComplianceConfig × ToggleState) :=
  match st.config with
  | none => .error .notFound
  | some previousConfig =>
    let moduleConfig := previousConfig.moduleConfig.get request.moduleName
    if strTruthy request.feature then
      let f := request.feature.getD ""
      if !(moduleConfig.hasKey f) then .error .invalidFeature
      else
        .ok (commitModuleToggle st previousConfig request
          (previousConfig.moduleConfig.set request.moduleName
            (moduleConfig.setKey f request.enabled)))
    else
      .ok (commitModuleToggle st previousConfig request
        (previousConfig.moduleConfig.set request.moduleName
          { moduleConfig with enabled := request.enabled }))

/-- A toggle operation submitted to the configuration store. -/
inductive ToggleOp
  | master (request : ToggleMasterRequest)
  | moduleOp (request : ToggleModuleRequest)
deriving DecidableEq, Repr

/-- Apply one toggle operation; the boolean reports whether it committed
(a failed `toggleModule` rolls back, leaving the state unchanged). -/
def applyToggleOp (st : ToggleState) (op : ToggleOp) : ToggleState × Bool :=
  match op with
  | .master request => ((toggleMaster st request).2, true)
  | .moduleOp request =>
    match toggleModule st request with
    | .ok (_, st2) => (st2, true)
    | .error _ => (st, false)

def runToggleOps (st : ToggleState) : List ToggleOp → ToggleState
  | [] => st
  | op :: rest => runToggleOps (applyToggleOp st op).1 rest

/-- Whether an operation commits from the given state. -/
def opCommits (st : ToggleState) (op : ToggleOp) : Bool :=
  (applyToggleOp st op).2

/-- Whether the schema's `AFTER UPDATE` audit trigger fires for an operation
from the given state: the operation commits on the update path (a config row
already exists) and actually changes the stored row. -/
def opTriggerFires (st : ToggleState) (op : ToggleOp) : Bool :=
  match st.config with
  | none => false
  | some cfg => opCommits st op && decide ((applyToggleOp st op).1.config ≠ some cfg)

def countCommitted (st : ToggleState) : List ToggleOp → Nat
  | [] => 0
  | op :: rest =>
    (if opCommits st op then 1 else 0) + countCommitted (applyToggleOp st op).1 rest

def countTriggerRows (st : ToggleState) : List ToggleOp → Nat
  | [] => 0
  | op :: rest =>
    (if opTriggerFires st op then 1 else 0) + countTriggerRows (applyToggleOp st op).1 rest

/-- `AssessmentStatus` of a `compliance_assessments` row. -/
inductive AssessmentStatus
  | pending
  | inProgress
  | completed
  | failed
  | cancelled
deriving DecidableEq, Repr

/-- `FindingStatus` (the source's `'partial'` value is `partialCompliance`
here, since `partial` is reserved in Lean). -/
inductive FindingStatus
  | compliant
  | nonCompliant
  | partialCompliance
  | notApplicable
  | notAssessed
deriving DecidableEq, Repr

def FindingStatus.toStr : FindingStatus → String
  | .compliant => "compliant"
  | .nonCompliant => "non_compliant"
  | .partialCompliance => "partial"
  | .notApplicable => "not_applicable"
  | .notAssessed => "not_assessed"

inductive FindingSeverity
  | critical
  | major
  | minor
  | observation
deriving DecidableEq, Repr

inductive RiskLevel
  | low
  | medium
  | high
  | critical
deriving DecidableEq, Repr

inductive RemediationStatus
  | notRequired
  | pending
  | inProgress
  | completed
  | acceptedRisk
  | deferred
deriving DecidableEq, Repr

/-- A `compliance_controls` row (the columns `runAssessment` reads). -/
structure Control where
  id : String
  frameworkId : String
  controlNumber : String
  domain : Option String
  title : String
  implementationPriority : Int
deriving DecidableEq, Repr

/-- A `control_findings` row (the columns the claims are about).  Row ids are
modelled as naturals standing in for the generated UUIDs. -/
structure Finding where
  id : Nat
  controlId : String
  status : FindingStatus
  severity : Option FindingSeverity
  findingTitle : Option String
  findingDescription : Option String
  aiAssessment : Option String
  aiConfidence : Option ℚ
  remediationRequired : Bool
  remediationStatus : RemediationStatus
  remediationPlan : Option String
  remediationOwner : Option String
  remediationDueDate : Option Nat
  verificationNotes : Option String
  humanVerified : Bool
  verifiedBy : Option String
  verifiedAt : Option Nat
deriving DecidableEq, Repr

/-- A `compliance_assessments` row (the columns the core logic touches).
Timestamps are naturals read from the database clock. -/
structure Assessment where
  frameworkId : String
  scope : List String
  excludedControls : List String
  status : AssessmentStatus
  overallScore : Option Int
  riskLevel : Option RiskLevel
  totalControlsAssessed : Nat
  compliantControls : Nat
  nonCompliantControls : Nat
  partialControls : Nat
  notApplicableControls : Nat
  criticalFindings : Nat
  majorFindings : Nat
  minorFindings : Nat
  observations : Nat
  aiModelUsed : Option String
  aiConfidence : Option ℚ
  startedAt : Option Nat
  completedAt : Option Nat
deriving DecidableEq, Repr

/-- One tenant's slice of the assessment store: the assessment row addressed
by the call (if any), the control catalog, the finding rows, and the
database clock used for `NOW()`. -/
structure AssessDB where
  assessment : Option Assessment
  controls : List Control
  findings : List Finding
  now : Nat
deriving DecidableEq, Repr

structure ServiceContext where
  tenantId : String
  userId : String
deriving DecidableEq, Repr

/-- `RunAssessmentRequest`. -/
structure RunOptions where
  useAI : Bool
  aiModel : Option String
deriving DecidableEq, Repr

/-- Error outcomes of the assessment-service operations (the source throws
`Error` objects; these constructors name the distinct throw sites). -/
inductive RunError
  | notFound
  | invalidState
  | storage
  | noFields
deriving DecidableEq, Repr

/-- Injected storage failures, used to model errors raised by the store
during control resolution, a finding insert, or the final aggregate
update inside the `runAssessment` transaction. -/
structure FaultSpec where
  controlQueryFails : Bool := false
  insertFailsAt : Option Nat := none
  finalUpdateFails : Bool := false
deriving DecidableEq, Repr

def noFaults : FaultSpec := {}

/-- The database client's `transaction` helper: run the body on the current
state; COMMIT its state on success, ROLLBACK to the original state and
rethrow on error. -/
def dbTransaction (db : AssessDB)
    (body : AssessDB → Except RunError (Assessment × AssessDB)) :
    Except RunError Assessment × AssessDB :=
  match body db with
  | .ok (a, db2) => (.ok a, db2)
  | .error e => (.error e, db)

/-- JS `Math.round`: round half towards positive infinity. -/
def jsRound (x : ℚ) : Int := (x + 1/2).floor

/-- `calculateRiskLevel` from the assessment service. -/
def calculateRiskLevel (score : Int) : RiskLevel :=
  if score ≥ 90 then .low
  else if score ≥ 70 then .medium
  else if score ≥ 50 then .high
  else .critical

/-- The overall-score computation of `runAssessment`:
`totalAssessed = compliant + nonCompliant + partial`, then
`Math.round((compliant/totalAssessed)*100 + (partial/totalAssessed)*50)`
when `totalAssessed > 0`, else `0`. -/
def overallScoreCalc (compliant nonCompliant partialCount : Nat) : Int :=
  let totalAssessed := compliant + nonCompliant + partialCount
  if totalAssessed > 0 then
    jsRound (((compliant : ℚ) / (totalAssessed : ℚ)) * 100
      + ((partialCount : ℚ) / (totalAssessed : ℚ)) * 50)
  else 0

/-- Insert a control into a list kept in descending `implementation_priority`
order. -/
def insertByPriorityDesc (c : Control) : List Control → List Control
  | [] => [c]
  | d :: rest =>
    if d.implementationPriority ≤ c.implementationPriority then c :: d :: rest
    else d :: insertByPriorityDesc c rest

/-- `ORDER BY implementation_priority DESC` (insertion sort). -/
def sortByPriorityDesc : List Control → List Control
  | [] => []
  | c :: rest => insertByPriorityDesc c (sortByPriorityDesc rest)

/-- Control resolution of `runAssessment`: controls of the assessment's
framework, intersected with the scope's domains when the scope is non-empty,
minus the excluded control ids, ordered by descending implementation
priority. -/
def applicableControls (controls : List Control) (a : Assessment) : List Control :=
  sortByPriorityDesc (controls.filter fun c =>
    c.frameworkId == a.frameworkId &&
    (a.scope.isEmpty ||
      (match c.domain with
       | some d => a.scope.contains d
       | none => false)) &&
    !(a.excludedControls.contains c.id))

/-- Per-control evaluator output (status, optional severity, narrative and
confidence) before it is written into a finding row. -/
structure EvalOutcome where
  status : FindingStatus
  severity : Option FindingSeverity
  aiAssessment : Option String
  aiConfidence : ℚ
deriving DecidableEq, Repr

/-- The per-control evaluation of `runAssessment`.  With AI assistance on
(`useAI` requested and enabled in configuration) the stand-in evaluator
classifies by the control's random draw `r` and the control's priority;
otherwise the control is marked `not_assessed` with confidence `0`. -/
def evaluateControl (useAI aiEnabled : Bool) (r : ℚ) (c : Control) : EvalOutcome :=
  if useAI && aiEnabled then
    let gapMsg := "AI-assisted evaluation of " ++ c.title ++
      ". Gaps identified in control implementation. Remediation recommended."
    if r < 0.6 then
      { status := .compliant, severity := none,
        aiAssessment := some ("AI-assisted evaluation of " ++ c.title ++
          ". Control appears to be effectively implemented."),
        aiConfidence := 0.75 }
    else if r < 0.75 then
      { status := .partialCompliance, severity := some .minor,
        aiAssessment := some gapMsg, aiConfidence := 0.75 }
    else if r < 0.9 then
      { status := .nonCompliant,
        severity := some (if c.implementationPriority > 80 then .major else .minor),
        aiAssessment := some gapMsg, aiConfidence := 0.75 }
    else
      { status := .notApplicable, severity := none,
        aiAssessment := some gapMsg, aiConfidence := 0.75 }
  else
    { status := .notAssessed, severity := none, aiAssessment := none, aiConfidence := 0 }

/-- The aggregate counters accumulated by the `runAssessment` loop. -/
structure RunCounters where
  compliant : Nat := 0
  nonCompliant : Nat := 0
  partialCount : Nat := 0
  notApplicable : Nat := 0
  critical : Nat := 0
  major : Nat := 0
  minor : Nat := 0
  observations : Nat := 0
deriving DecidableEq, Repr

/-- The counter increments of the loop body (`critical` and `observations`
are never incremented by the stand-in evaluator). -/
def bumpCounters (cnt : RunCounters) (o : EvalOutcome) : RunCounters :=
  match o.status with
  | .compliant => { cnt with compliant := cnt.compliant + 1 }
  | .partialCompliance =>
    { cnt with partialCount := cnt.partialCount + 1, minor := cnt.minor + 1 }
  | .nonCompliant =>
    { cnt with
      nonCompliant := cnt.nonCompliant + 1
      major := if o.severity = some .major then cnt.major + 1 else cnt.major
      minor := if o.severity = some .major then cnt.minor else cnt.minor + 1 }
  | .notApplicable => { cnt with notApplicable := cnt.notApplicable + 1 }
  | .notAssessed => cnt

/-- The `INSERT INTO control_findings` row built for one control. -/
def mkFinding (useAI : Bool) (findingId : Nat) (c : Control) (o : EvalOutcome) : Finding where
  id := findingId
  controlId := c.id
  status := o.status
  severity := o.severity
  findingTitle :=
    if o.status = .compliant then none else some (c.title ++ " - " ++ o.status.toStr)
  findingDescription :=
    if o.status = .compliant then none else some ("Review and remediate " ++ c.controlNumber)
  aiAssessment := o.aiAssessment
  aiConfidence := if useAI then some o.aiConfidence else none
  remediationRequired := o.status = .nonCompliant ∨ o.status = .partialCompliance
  remediationStatus :=
    if o.status = .nonCompliant ∨ o.status = .partialCompliance then .pending
    else .notRequired
  remediationPlan := none
  remediationOwner := none
  remediationDueDate := none
  verificationNotes := none
  humanVerified := false
  verifiedBy := none
  verifiedAt := none

/-- The finding-creation loop of `runAssessment`: walk the controls,
evaluate each, bump the counters and insert one finding per control.  An
injected fault at index `i` models a storage failure of that insert. -/
def evalControlsAux (useAI aiEnabled : Bool) (draws : Nat → ℚ) (insertFailsAt : Option Nat)
    (baseId : Nat) :
    List Control → Nat → RunCounters → List Finding →
    Except RunError (RunCounters × List Finding)
  | [], _, cnt, fs => .ok (cnt, fs)
  | c :: rest, i, cnt, fs =>
    if insertFailsAt = some i then .error .storage
    else
      let o := evaluateControl useAI aiEnabled (draws i) c
      evalControlsAux useAI aiEnabled draws insertFailsAt baseId rest (i + 1)
        (bumpCounters cnt o) (fs ++ [mkFinding useAI (baseId + i) c o])

/-- The transaction body of `runAssessment` (everything between BEGIN and
COMMIT): load + lock the assessment, check the status gate, transition to
`in_progress`, resolve controls, insert one finding per control, aggregate,
and write the terminal `completed` row. -/
def runBody (db0 : AssessDB) (options : RunOptions) (aiEnabled : Bool)
    (configAiModel : String) (draws : Nat → ℚ) (faults : FaultSpec) :
    Except RunError (Assessment × AssessDB) :=
  match db0.assessment with
  | none => .error .notFound
  | some assessment =>
    if assessment.status ≠ .pending ∧ assessment.status ≠ .failed then
      .error .invalidState
    else
      let assessment1 := { assessment with status := .inProgress, startedAt := some db0.now }
      let db1 := { db0 with assessment := some assessment1 }
      if faults.controlQueryFails then .error .storage
      else
        let controls := applicableControls db1.controls assessment
        match evalControlsAux options.useAI aiEnabled draws faults.insertFailsAt
            db1.findings.length controls 0 {} [] with
        | .error e => .error e
        | .ok (cnt, newFindings) =>
          let db2 := { db1 with findings := db1.findings ++ newFindings }
          let overallScore := overallScoreCalc cnt.compliant cnt.nonCompliant cnt.partialCount
          let riskLevel := calculateRiskLevel overallScore
          if faults.finalUpdateFails then .error .storage
          else
            let finalAssessment : Assessment := { assessment1 with
              status := .completed
              completedAt := some db2.now
              overallScore := some overallScore
              riskLevel := some riskLevel
              totalControlsAssessed := controls.length
              compliantControls := cnt.compliant
              nonCompliantControls := cnt.nonCompliant
              partialControls := cnt.partialCount
              notApplicableControls := cnt.notApplicable
              criticalFindings := cnt.critical
              majorFindings := cnt.major
              minorFindings := cnt.minor
              observations := cnt.observations
              aiModelUsed :=
                if options.useAI then some (options.aiModel.getD configAiModel) else none
              aiConfidence := if options.useAI then some 0.75 else none }
            .ok (finalAssessment, { db2 with assessment := some finalAssessment })

/-- `runAssessment`: the transaction body wrapped in the database client's
transaction (COMMIT on success, full ROLLBACK on any error). -/
def runAssessment (db : AssessDB) (options : RunOptions) (aiEnabled : Bool)
    (configAiModel : String) (draws : Nat → ℚ) (faults : FaultSpec) :
    Except RunError Assessment × AssessDB :=
  dbTransaction db fun db0 => runBody db0 options aiEnabled configAiModel draws faults

/-- The updatable fields of `updateFinding` (absent = not supplied). -/
structure FindingUpdateRequest where
  status : Option FindingStatus := none
  severity : Option FindingSeverity := none
  findingTitle : Option String := none
  findingDescription : Option String := none
  remediationPlan : Option String := none
  remediationOwner : Option String := none
  remediationDueDate : Option Nat := none
  remediationStatus : Option RemediationStatus := none
  verificationNotes : Option String := none
deriving DecidableEq, Repr

/-- Whether any SET clause would be generated (else the source throws
`No valid fields to update`). -/
def FindingUpdateRequest.hasAnyField (u : FindingUpdateRequest) : Bool :=
  u.status.isSome || u.severity.isSome || u.findingTitle.isSome ||
  u.findingDescription.isSome || u.remediationPlan.isSome || u.remediationOwner.isSome ||
  u.remediationDueDate.isSome || u.remediationStatus.isSome || u.verificationNotes.isSome

/-- The SET clauses built from the supplied fields. -/
def applySetClauses (u : FindingUpdateRequest) (f : Finding) : Finding :=
  { f with
    status := u.status.getD f.status
    severity := match u.severity with | some s => some s | none => f.severity
    findingTitle := match u.findingTitle with | some s => some s | none => f.findingTitle
    findingDescription :=
      match u.findingDescription with | some s => some s | none => f.findingDescription
    remediationPlan :=
      match u.remediationPlan with | some s => some s | none => f.remediationPlan
    remediationOwner :=
      match u.remediationOwner with | some s => some s | none => f.remediationOwner
    remediationDueDate :=
      match u.remediationDueDate with | some d => some d | none => f.remediationDueDate
    remediationStatus := u.remediationStatus.getD f.remediationStatus
    verificationNotes :=
      match u.verificationNotes with | some s => some s | none => f.verificationNotes }

/-- The source appends the human-verification SET clauses exactly when the
update carries a status value other than `not_assessed`. -/
def verificationTriggered (u : FindingUpdateRequest) : Bool :=
  match u.status with
  | some s => s ≠ .notAssessed
  | none => false

/-- `updateFinding`: reject empty updates, apply the SET clauses to the row
with the given id (NotFound when no row matches), stamping the
human-verification columns when a status override is present.  Only
`control_findings` is touched. -/
def updateFinding (ctx : ServiceContext) (db : AssessDB) (findingId : Nat)
    (u : FindingUpdateRequest) : Except RunError (Finding × AssessDB) :=
  if !u.hasAnyField then .error .noFields
  else
    match db.findings.find? (fun f => f.id == findingId) with
    | none => .error .notFound
    | some f =>
      let f1 := applySetClauses u f
      let f2 :=
        if verificationTriggered u then
          { f1 with
            humanVerified := true
            verifiedBy := some ctx.userId
            verifiedAt := some db.now }
        else f1
      .ok (f2,
        { db with findings := db.findings.map (fun g => if g.id == findingId then f2 else g) })

/-- The spec's score formula, written from the spec's words:
`round(100 * compliant/totalAssessed + 50 * partial/totalAssessed)` for
`totalAssessed > 0`, else `0`. -/
def specScore (compliant nonCompliant partialCount : Nat) : Int :=
  let totalAssessed := compliant + nonCompliant + partialCount
  if 0 < totalAssessed then
    jsRound (100 * (compliant : ℚ) / (totalAssessed : ℚ)
      + 50 * (partialCount : ℚ) / (totalAssessed : ℚ))
  else 0

/-- The spec's risk-level thresholds, written from the spec's words:
`score ≥ 90 → low`, `≥70 → medium`, `≥50 → high`, else `critical`. -/
def specRiskLevel (score : Int) : RiskLevel :=
  if 90 ≤ score then .low
  else if 70 ≤ score then .medium
  else if 50 ≤ score then .high
  else .critical

/-- The claim's reading of the gate (C4), written from the spec's words,
including `false` for a feature key absent from the module record. -/
def specIsEnabledAmended (config : ComplianceConfig) (m : ModuleName)
    (feature : Option String) : Bool :=
  config.masterEnabled && (config.moduleConfig.get m).enabled &&
    (match feature with
     | none => true
     | some s =>
       if s = "" then true
       else ((config.moduleConfig.get m).getKey s).getD false)

/-! ### Concrete sample data (used by witnesses and counterexamples) -/

def initialToggleState : ToggleState where
  config := some defaultComplianceConfig
  audits := []

def masterOffOp : ToggleOp :=
  .master { enabled := false, reason := "incident freeze" }

def enabledFeatureReq : ToggleModuleRequest where
  moduleName := .gdpr
  enabled := false
  reason := "maintenance window"
  feature := some "enabled"

def sampleControl : Control where
  id := "iso-a5-1"
  frameworkId := "iso27001"
  controlNumber := "A.5.1"
  domain := some "organizational"
  title := "Policies for information security"
  implementationPriority := 90

def pendingAssessment : Assessment where
  frameworkId := "iso27001"
  scope := []
  excludedControls := []
  status := .pending
  overallScore := none
  riskLevel := none
  totalControlsAssessed := 0
  compliantControls := 0
  nonCompliantControls := 0
  partialControls := 0
  notApplicableControls := 0
  criticalFindings := 0
  majorFindings := 0
  minorFindings := 0
  observations := 0
  aiModelUsed := none
  aiConfidence := none
  startedAt := none
  completedAt := none

def sampleDB : AssessDB where
  assessment := some pendingAssessment
  controls := [sampleControl]
  findings := []
  now := 5

def manualOptions : RunOptions where
  useAI := false
  aiModel := none

def queryFailFaults : FaultSpec := { controlQueryFails := true }

def insertFailFaults : FaultSpec := { insertFailsAt := some 0 }

/-- The assessment row after the manual sample run commits. -/
def completedSampleAssessment : Assessment := { pendingAssessment with
  status := .completed
  startedAt := some 5
  completedAt := some 5
  overallScore := some 0
  riskLevel := some .critical
  totalControlsAssessed := 1 }

/-- The finding row the manual sample run inserts. -/
def sampleRunFinding : Finding where
  id := 0
  controlId := "iso-a5-1"
  status := .notAssessed
  severity := none
  findingTitle := some "Policies for information security - not_assessed"
  findingDescription := some "Review and remediate A.5.1"
  aiAssessment := none
  aiConfidence := none
  remediationRequired := false
  remediationStatus := .notRequired
  remediationPlan := none
  remediationOwner := none
  remediationDueDate := none
  verificationNotes := none
  humanVerified := false
  verifiedBy := none
  verifiedAt := none

def sampleRunDB : AssessDB := { sampleDB with
  assessment := some completedSampleAssessment
  findings := [sampleRunFinding] }

def completedIdleAssessment : Assessment := { pendingAssessment with status := .completed }

def completedIdleDB : AssessDB := { sampleDB with assessment := some completedIdleAssessment }

def sampleCtx : ServiceContext where
  tenantId := "t1"
  userId := "auditor-7"

def severityOnlyUpdate : FindingUpdateRequest := { severity := some .major }

def statusOverrideUpdate : FindingUpdateRequest := { status := some .compliant }

/-- The finding row after the status-override update commits. -/
def verifiedSampleFinding : Finding := { sampleRunFinding with
  status := .compliant
  humanVerified := true
  verifiedBy := some "auditor-7"
  verifiedAt := some 5 }

def verifiedSampleDB : AssessDB := { sampleRunDB with findings := [verifiedSampleFinding] }

/-! ## Helper lemmas -/

theorem jsRound_eq_intFloor (x : ℚ) : jsRound x = ⌊x + 1/2⌋ := by
  simp [jsRound, Rat.floor_def, Rat.floor_def']

theorem jsRound_mono {x y : ℚ} (h : x ≤ y) : jsRound x ≤ jsRound y := by
  rw [jsRound_eq_intFloor, jsRound_eq_intFloor]
  exact Int.floor_le_floor (by linarith)

/-- The code's score expression and the spec's score formula agree. -/
theorem overallScoreCalc_eq_specScore (c n p : ℕ) :
    overallScoreCalc c n p = specScore c n p := by
  simp only [overallScoreCalc, specScore]
  by_cases h0 : 0 < c + n + p
  · rw [if_pos h0, if_pos h0]
    exact congrArg jsRound (by ring)
  · rw [if_neg h0, if_neg h0]

/-- The code's risk thresholds and the spec's thresholds agree. -/
theorem calculateRiskLevel_eq_spec (s : Int) :
    calculateRiskLevel s = specRiskLevel s := rfl

theorem runAssessment_ok_body {db : AssessDB} {options : RunOptions} {aiEnabled : Bool}
    {configAiModel : String} {draws : Nat → ℚ} {faults : FaultSpec}
    {a : Assessment} {db2 : AssessDB}
    (h : runAssessment db options aiEnabled configAiModel draws faults = (.ok a, db2)) :
    runBody db options aiEnabled configAiModel draws faults = .ok (a, db2) := by
  unfold runAssessment dbTransaction at h
  split at h
  · rename_i a2 db3 heq
    rw [Prod.mk.injEq, Except.ok.injEq] at h
    obtain ⟨h1, h2⟩ := h
    subst h1; subst h2
    exact heq
  · exact absurd h (by simp)

theorem runBody_ok_shape {db : AssessDB} {options : RunOptions} {aiEnabled : Bool}
    {configAiModel : String} {draws : Nat → ℚ} {faults : FaultSpec}
    {a : Assessment} {db2 : AssessDB}
    (h : runBody db options aiEnabled configAiModel draws faults = .ok (a, db2)) :
    ∃ a0 cnt newFindings,
      db.assessment = some a0 ∧
      ¬(a0.status ≠ .pending ∧ a0.status ≠ .failed) ∧
      evalControlsAux options.useAI aiEnabled draws faults.insertFailsAt
        db.findings.length (applicableControls db.controls a0) 0 {} [] =
        .ok (cnt, newFindings) ∧
      a = { a0 with
        status := .completed
        startedAt := some db.now
        completedAt := some db.now
        overallScore := some (overallScoreCalc cnt.compliant cnt.nonCompliant cnt.partialCount)
        riskLevel := some (calculateRiskLevel
          (overallScoreCalc cnt.compliant cnt.nonCompliant cnt.partialCount))
        totalControlsAssessed := (applicableControls db.controls a0).length
        compliantControls := cnt.compliant
        nonCompliantControls := cnt.nonCompliant
        partialControls := cnt.partialCount
        notApplicableControls := cnt.notApplicable
        criticalFindings := cnt.critical
        majorFindings := cnt.major
        minorFindings := cnt.minor
        observations := cnt.observations
        aiModelUsed := if options.useAI then some (options.aiModel.getD configAiModel) else none
        aiConfidence := if options.useAI then some 0.75 else none } ∧
      db2 = { db with
        assessment := some a
        findings := db.findings ++ newFindings } := by
  unfold runBody at h
  rcases hA : db.assessment with _ | a0
  · simp only [hA] at h
    exact absurd h (by simp)
  · simp only [hA] at h
    by_cases hstat : a0.status ≠ .pending ∧ a0.status ≠ .failed
    · rw [if_pos hstat] at h; exact absurd h (by simp)
    · rw [if_neg hstat] at h
      rcases hq : faults.controlQueryFails <;> simp only [hq, Bool.false_eq_true, if_false] at h
      · rcases heval : evalControlsAux options.useAI aiEnabled draws faults.insertFailsAt
            db.findings.length (applicableControls db.controls a0) 0 {} [] with e | p
        · rw [heval] at h; exact absurd h (by simp)
        · obtain ⟨cnt, newFindings⟩ := p
          rw [heval] at h
          rcases hf : faults.finalUpdateFails <;> simp only [hf, Bool.false_eq_true, if_false] at h
          · rw [Except.ok.injEq, Prod.mk.injEq] at h
            obtain ⟨h1, h2⟩ := h
            refine ⟨a0, cnt, newFindings, rfl, hstat, heval, h1.symm, ?_⟩
            rw [← h1]
            exact h2.symm
          · exact absurd h (by simp)
      · exact absurd h (by simp)

theorem evalControlsAux_counts {useAI aiEnabled : Bool} {draws : Nat → ℚ}
    {ifa : Option Nat} {base : Nat} :
    ∀ (cs : List Control) (i : Nat) (cnt : RunCounters) (fs : List Finding)
      {cnt2 : RunCounters} {fs2 : List Finding},
      evalControlsAux useAI aiEnabled draws ifa base cs i cnt fs = .ok (cnt2, fs2) →
      cnt2.compliant + cnt2.nonCompliant + cnt2.partialCount + cnt2.notApplicable +
        fs2.countP (fun f => f.status == .notAssessed) =
      cnt.compliant + cnt.nonCompliant + cnt.partialCount + cnt.notApplicable +
        fs.countP (fun f => f.status == .notAssessed) + cs.length := by
  intro cs
  induction cs with
  | nil =>
    intro i cnt fs cnt2 fs2 h
    simp only [evalControlsAux, Except.ok.injEq, Prod.mk.injEq] at h
    obtain ⟨h1, h2⟩ := h
    subst h1; subst h2
    simp
  | cons c rest ih =>
    intro i cnt fs cnt2 fs2 h
    rw [evalControlsAux] at h
    split at h
    · exact absurd h (by simp)
    · have hstep := ih (i + 1)
        (bumpCounters cnt (evaluateControl useAI aiEnabled (draws i) c))
        (fs ++ [mkFinding useAI (base + i) c (evaluateControl useAI aiEnabled (draws i) c)]) h
      rcases ho : (evaluateControl useAI aiEnabled (draws i) c).status <;>
        simp [bumpCounters, ho, mkFinding, List.countP_append, List.countP_cons] at hstep ⊢ <;>
        omega

theorem evalControlsAux_noAI {useAI aiEnabled : Bool} {draws : Nat → ℚ}
    {ifa : Option Nat} {base : Nat} (hAI : (useAI && aiEnabled) = false) :
    ∀ (cs : List Control) (i : Nat) (cnt : RunCounters) (fs : List Finding)
      {cnt2 : RunCounters} {fs2 : List Finding},
      evalControlsAux useAI aiEnabled draws ifa base cs i cnt fs = .ok (cnt2, fs2) →
      ∃ nf, fs2 = fs ++ nf ∧ nf.length = cs.length ∧
        ∀ f ∈ nf, f.status = .notAssessed ∧
          f.aiConfidence = (if useAI then some 0 else none) := by
  intro cs
  induction cs with
  | nil =>
    intro i cnt fs cnt2 fs2 h
    simp only [evalControlsAux, Except.ok.injEq, Prod.mk.injEq] at h
    obtain ⟨h1, h2⟩ := h
    exact ⟨[], by simp [h2.symm], rfl, by simp⟩
  | cons c rest ih =>
    intro i cnt fs cnt2 fs2 h
    rw [evalControlsAux] at h
    split at h
    · exact absurd h (by simp)
    · obtain ⟨nf, hfs, hlen, hall⟩ := ih (i + 1) _ _ h
      refine ⟨mkFinding useAI (base + i) c (evaluateControl useAI aiEnabled (draws i) c) :: nf,
        ?_, ?_, ?_⟩
      · rw [hfs]; simp
      · simp [hlen]
      · intro f hf
        rcases List.mem_cons.mp hf with hf | hf
        · subst hf
          refine ⟨by simp [mkFinding, evaluateControl, hAI], ?_⟩
          simp [mkFinding, evaluateControl, hAI]
        · exact hall f hf

theorem commitModuleToggle_state (st : ToggleState) (cfg : ComplianceConfig)
    (request : ToggleModuleRequest) (newMap : ModuleConfigMap) :
    (commitModuleToggle st cfg request newMap).2.config =
      some { cfg with moduleConfig := newMap } ∧
    (commitModuleToggle st cfg request newMap).2.audits.length =
      st.audits.length + (if cfg.moduleConfig = newMap then 1 else 2) := by
  unfold commitModuleToggle
  refine ⟨rfl, ?_⟩
  by_cases hcm : cfg.moduleConfig = newMap <;> simp [hcm]

theorem toggleModule_ok_shape {st : ToggleState} {request : ToggleModuleRequest}
    {cfg2 : ComplianceConfig} {st2 : ToggleState}
    (h : toggleModule st request = .ok (cfg2, st2)) :
    ∃ cfg newMap, st.config = some cfg ∧
      (cfg2, st2) = commitModuleToggle st cfg request newMap := by
  unfold toggleModule at h
  rcases hc : st.config with _ | cfg
  · simp only [hc] at h
    exact absurd h (by simp)
  · simp only [hc] at h
    rcases hb : strTruthy request.feature <;>
      simp only [hb, Bool.false_eq_true, if_false, if_true] at h
    · exact ⟨cfg, _, rfl, (Except.ok.inj h).symm⟩
    · rcases hk : (cfg.moduleConfig.get request.moduleName).hasKey (request.feature.getD "") <;>
        simp only [hk, Bool.not_false, Bool.not_true, Bool.false_eq_true, if_false, if_true] at h
      · exact absurd h (by simp)
      · exact ⟨cfg, _, rfl, (Except.ok.inj h).symm⟩

theorem applyToggleOp_audits (st : ToggleState) (op : ToggleOp) :
    (applyToggleOp st op).1.audits.length =
      st.audits.length + (if opCommits st op then 1 else 0) +
        (if opTriggerFires st op then 1 else 0) := by
  rcases op with request | request
  · rcases hc : st.config with _ | cfg
    · simp [applyToggleOp, toggleMaster, opCommits, opTriggerFires, hc]
    · by_cases he : cfg.masterEnabled = request.enabled
      · have heta : ({ cfg with masterEnabled := request.enabled } : ComplianceConfig) = cfg := by
          cases cfg
          simp_all
        simp [applyToggleOp, toggleMaster, opCommits, opTriggerFires, hc, he, heta]
      · have hne : ({ cfg with masterEnabled := request.enabled } : ComplianceConfig) ≠ cfg := by
          intro hx
          exact he ((congrArg ComplianceConfig.masterEnabled hx).symm)
        simp only [applyToggleOp, toggleMaster, opCommits, opTriggerFires, hc, he]
        simp [hne, if_neg he]
  · rcases hm : toggleModule st request with e | p
    · rcases hc : st.config with _ | cfg <;>
        simp [applyToggleOp, opCommits, opTriggerFires, hc, hm]
    · obtain ⟨cfgR, st2⟩ := p
      obtain ⟨cfg, newMap, hc, hcommit⟩ := toggleModule_ok_shape hm
      obtain ⟨hcfg, hst2⟩ := Prod.mk.injEq .. ▸ hcommit
      by_cases hcm : cfg.moduleConfig = newMap
      · have hcfge :
            ({ masterEnabled := cfg.masterEnabled, moduleConfig := newMap } : ComplianceConfig) =
              cfg := by
          cases cfg
          simp_all
        simp [applyToggleOp, hm, opCommits, opTriggerFires, hc, hst2, hcm, hcfge]
      · have hcfgne :
            ({ masterEnabled := cfg.masterEnabled, moduleConfig := newMap } : ComplianceConfig) ≠
              cfg := by
          intro hx
          exact hcm ((congrArg ComplianceConfig.moduleConfig hx).symm)
        simp [applyToggleOp, hm, opCommits, opTriggerFires, hc, hst2, hcm, hcfgne]

theorem ModuleConfigMap.get_set (mc : ModuleConfigMap) (m : ModuleName) (v : ModuleConfig) :
    (mc.set m v).get m = v := by
  cases m <;> rfl

/-- The `"enabled"` key of a module record is the module's own flag, so the
gate with `feature = "enabled"` is master AND module. -/
theorem configIsEnabled_enabled_key (c : ComplianceConfig) (m : ModuleName) :
    configIsEnabled c m (some "enabled") =
      (c.masterEnabled && (c.moduleConfig.get m).enabled) := by
  cases hme : c.masterEnabled <;> cases hmod : (c.moduleConfig.get m).enabled <;>
    simp [configIsEnabled, strTruthy, ModuleConfig.getKey, hme, hmod]

/-! ## Claim C1 -/

/-- C1 (counterexample to the claim as stated): a `runAssessment` that
starts from a `pending` assessment and hits a storage error during control
resolution rolls the whole transaction back: afterwards the assessment's
status is still `pending` — not `failed`, as the claim asserts — and no
finding rows exist. -/
theorem c1_failed_status_counterexample :
    runAssessment sampleDB manualOptions false "gpt-4" (fun _ => 0) queryFailFaults =
      (.error .storage, sampleDB) ∧
    sampleDB.assessment = some pendingAssessment ∧
    pendingAssessment.status = .pending ∧
    AssessmentStatus.pending ≠ AssessmentStatus.failed ∧
    sampleDB.findings = [] :=
  ⟨rfl, rfl, rfl, by decide, rfl⟩

/-- C1 (amended): whenever `runAssessment` does not commit — any error
inside the transaction, including failures during control resolution, a
finding insert, or the final aggregate update — the transaction rolls back
completely: the database afterwards is exactly the pre-call state, so no
finding rows from the run are visible and the assessment keeps its pre-run
status (`pending` or `failed`) rather than being transitioned to `failed`. -/
theorem c1_run_rollback (db : AssessDB) (options : RunOptions) (aiEnabled : Bool)
    (configAiModel : String) (draws : Nat → ℚ) (faults : FaultSpec)
    (h : (runAssessment db options aiEnabled configAiModel draws faults).1.isOk = false) :
    (runAssessment db options aiEnabled configAiModel draws faults).2 = db := by
  unfold runAssessment dbTransaction at h ⊢
  rcases hb : runBody db options aiEnabled configAiModel draws faults with e | p
  · simp only [hb]
  · obtain ⟨a2, db3⟩ := p
    simp only [hb] at h
    simp [Except.toBool] at h

theorem c1_run_rollback_witness :
    (runAssessment sampleDB manualOptions false "gpt-4" (fun _ => 0) insertFailFaults).2 =
      sampleDB :=
  c1_run_rollback sampleDB manualOptions false "gpt-4" (fun _ => 0) insertFailFaults rfl

/-! ## Claim C2 -/

/-- C2: every committed `runAssessment` persists
`overallScore = round(100*c/t + 50*p/t)` — `0` when `t = 0` — for
`t = compliantControls + nonCompliantControls + partialControls`, and a risk
level of `low` for score ≥ 90, `medium` for ≥ 70, `high` for ≥ 50 and
`critical` otherwise. -/
theorem c2_score_and_risk {db : AssessDB} {options : RunOptions} {aiEnabled : Bool}
    {configAiModel : String} {draws : Nat → ℚ} {faults : FaultSpec}
    {a : Assessment} {db2 : AssessDB}
    (h : runAssessment db options aiEnabled configAiModel draws faults = (.ok a, db2)) :
    a.overallScore =
      some (specScore a.compliantControls a.nonCompliantControls a.partialControls) ∧
    a.riskLevel =
      some (specRiskLevel
        (specScore a.compliantControls a.nonCompliantControls a.partialControls)) := by
  obtain ⟨a0, cnt, nf, hA, hstat, heval, ha, hdb2⟩ := runBody_ok_shape (runAssessment_ok_body h)
  subst ha
  refine ⟨congrArg some (overallScoreCalc_eq_specScore cnt.compliant cnt.nonCompliant
    cnt.partialCount), congrArg some ?_⟩
  rw [calculateRiskLevel_eq_spec, overallScoreCalc_eq_specScore]

theorem c2_score_and_risk_witness :
    completedSampleAssessment.overallScore =
      some (specScore completedSampleAssessment.compliantControls
        completedSampleAssessment.nonCompliantControls
        completedSampleAssessment.partialControls) ∧
    completedSampleAssessment.riskLevel =
      some (specRiskLevel
        (specScore completedSampleAssessment.compliantControls
          completedSampleAssessment.nonCompliantControls
          completedSampleAssessment.partialControls)) :=
  @c2_score_and_risk sampleDB manualOptions false "gpt-4" (fun _ => 0) noFaults
    completedSampleAssessment sampleRunDB rfl

/-! ## Claim C3 -/

/-- C3: `runAssessment` on an assessment whose status is `completed` or
`in_progress` fails fast with the invalid-state error and leaves the
database — the assessment row, its aggregates and all existing findings —
exactly unchanged; only `pending` and `failed` pass the status gate. -/
theorem c3_invalid_state_fail_fast {db : AssessDB} {a0 : Assessment}
    (options : RunOptions) (aiEnabled : Bool) (configAiModel : String)
    (draws : Nat → ℚ) (faults : FaultSpec)
    (hA : db.assessment = some a0)
    (hst : a0.status = .completed ∨ a0.status = .inProgress) :
    runAssessment db options aiEnabled configAiModel draws faults =
      (.error .invalidState, db) := by
  have hg : a0.status ≠ .pending ∧ a0.status ≠ .failed := by
    rcases hst with h | h <;> rw [h] <;> exact ⟨by decide, by decide⟩
  have hbody : runBody db options aiEnabled configAiModel draws faults =
      .error .invalidState := by
    unfold runBody
    simp only [hA, if_pos hg]
  unfold runAssessment dbTransaction
  simp only [hbody]

theorem c3_invalid_state_witness :
    runAssessment completedIdleDB manualOptions false "gpt-4" (fun _ => 0) noFaults =
      (.error .invalidState, completedIdleDB) :=
  c3_invalid_state_fail_fast manualOptions false "gpt-4" (fun _ => 0) noFaults rfl (Or.inl rfl)

/-! ## Claim C4 -/

/-- C4 (counterexample to the claim as stated): the empty string is a given
feature argument whose key is absent from the gdpr module record, so the
claim requires `false`; the code treats the falsy empty string as "no
feature supplied" and returns `true` instead. -/
theorem c4_empty_feature_counterexample :
    configIsEnabled defaultComplianceConfig .gdpr (some "") = true ∧
    ((defaultComplianceConfig.moduleConfig.get .gdpr).getKey "").getD false = false :=
  ⟨rfl, rfl⟩

/-- C4 (amended): the gate returns `false` whenever master is off,
regardless of module or feature values; with master on it returns `false`
when the module is off; with a given non-empty feature name it returns that
feature key's boolean value, `false` when the key is absent; otherwise it
returns `true` — with the proviso that an empty-string feature argument is
falsy in JS and is treated as "no feature", yielding `true`. -/
theorem c4_isEnabled_hierarchy (config : ComplianceConfig) (m : ModuleName)
    (feature : Option String) :
    configIsEnabled config m feature = specIsEnabledAmended config m feature := by
  cases hme : config.masterEnabled <;>
    cases hmod : (config.moduleConfig.get m).enabled <;>
    rcases feature with _ | s <;>
    simp [configIsEnabled, specIsEnabledAmended, strTruthy, hme, hmod]
  · by_cases hs : s = ""
    · simp [hs]
    · rcases hk : (config.moduleConfig.get m).getKey s with _ | b
      · simp [hs, hk]
      · cases b <;> simp [hs, hk]

/-! ## Claim C5 -/

/-- C5 (counterexample to the claim as stated): a committed manual run over
one control persists `totalControlsAssessed = 1` while
`compliant + nonCompliant + partial = 0`: the not-assessed control is
counted in the persisted total, contradicting the claimed equality. -/
theorem c5_total_counterexample :
    (runAssessment sampleDB manualOptions false "gpt-4" (fun _ => 0) noFaults).1 =
      .ok completedSampleAssessment ∧
    completedSampleAssessment.totalControlsAssessed = 1 ∧
    completedSampleAssessment.compliantControls +
        completedSampleAssessment.nonCompliantControls +
        completedSampleAssessment.partialControls = 0 ∧
    (1 : Nat) ≠ 0 :=
  ⟨rfl, rfl, rfl, by decide⟩

/-- C5 (amended): after every committed run the persisted
`totalControlsAssessed` equals the number of applicable controls, i.e. the
sum of the compliant, non-compliant, partial and not-applicable counters
plus the number of `not_assessed` findings written by the run; only the
scoring denominator `compliant + nonCompliant + partial` excludes the
not-applicable and not-assessed controls. -/
theorem c5_total_controls {db : AssessDB} {options : RunOptions} {aiEnabled : Bool}
    {configAiModel : String} {draws : Nat → ℚ} {faults : FaultSpec}
    {a : Assessment} {db2 : AssessDB}
    (h : runAssessment db options aiEnabled configAiModel draws faults = (.ok a, db2)) :
    a.totalControlsAssessed =
      a.compliantControls + a.nonCompliantControls + a.partialControls +
        a.notApplicableControls +
        (db2.findings.drop db.findings.length).countP (fun f => f.status == .notAssessed) := by
  obtain ⟨a0, cnt, nf, hA, hstat, heval, ha, hdb2⟩ := runBody_ok_shape (runAssessment_ok_body h)
  have hinv := evalControlsAux_counts _ _ _ _ heval
  subst ha
  subst hdb2
  dsimp only
  rw [List.drop_left]
  simp only [List.countP_nil] at hinv
  omega

theorem c5_total_controls_witness :
    completedSampleAssessment.totalControlsAssessed =
      completedSampleAssessment.compliantControls +
        completedSampleAssessment.nonCompliantControls +
        completedSampleAssessment.partialControls +
        completedSampleAssessment.notApplicableControls +
        (sampleRunDB.findings.drop sampleDB.findings.length).countP
          (fun f => f.status == .notAssessed) :=
  @c5_total_controls sampleDB manualOptions false "gpt-4" (fun _ => 0) noFaults
    completedSampleAssessment sampleRunDB rfl

/-! ## Claim C6 -/

/-- C6 (counterexample to the claim as stated): in a committed `useAI=false`
run the inserted finding row has status `not_assessed` but a NULL (absent)
persisted confidence — not the zero confidence the claim asserts. -/
theorem c6_null_confidence_counterexample :
    (runAssessment sampleDB manualOptions false "gpt-4" (fun _ => 0) noFaults).2.findings.map
        (fun f => (f.status, f.aiConfidence)) = [(.notAssessed, none)] ∧
    (none : Option ℚ) ≠ some 0 :=
  ⟨rfl, by decide⟩

/-- C6 (amended): when AI assistance is off (`useAI=false`) or unavailable
(AI disabled in configuration), a committed run still inserts exactly one
finding row per applicable control and every such row has status
`not_assessed`; its persisted confidence is `0` when `useAI` was requested
but AI is unavailable, and NULL when `useAI` was not requested. -/
theorem c6_not_assessed_rows {db : AssessDB} {options : RunOptions} {aiEnabled : Bool}
    {configAiModel : String} {draws : Nat → ℚ} {faults : FaultSpec}
    {a : Assessment} {db2 : AssessDB}
    (hAI : options.useAI = false ∨ aiEnabled = false)
    (h : runAssessment db options aiEnabled configAiModel draws faults = (.ok a, db2)) :
    (db2.findings.drop db.findings.length).length = a.totalControlsAssessed ∧
    ∀ f ∈ db2.findings.drop db.findings.length,
      f.status = .notAssessed ∧
      f.aiConfidence = (if options.useAI then some 0 else none) := by
  obtain ⟨a0, cnt, nf, hA, hstat, heval, ha, hdb2⟩ := runBody_ok_shape (runAssessment_ok_body h)
  have hb : (options.useAI && aiEnabled) = false := by
    rcases hAI with h1 | h1 <;> simp [h1]
  obtain ⟨nf2, hfs, hlen, hall⟩ := evalControlsAux_noAI hb _ _ _ _ heval
  simp only [List.nil_append] at hfs
  subst hfs
  subst ha
  subst hdb2
  dsimp only
  rw [List.drop_left]
  exact ⟨hlen, hall⟩

theorem c6_not_assessed_rows_witness :
    (sampleRunDB.findings.drop sampleDB.findings.length).length =
      completedSampleAssessment.totalControlsAssessed ∧
    ∀ f ∈ sampleRunDB.findings.drop sampleDB.findings.length,
      f.status = .notAssessed ∧
      f.aiConfidence = (if manualOptions.useAI then some 0 else none) :=
  @c6_not_assessed_rows sampleDB manualOptions false "gpt-4" (fun _ => 0) noFaults
    completedSampleAssessment sampleRunDB (Or.inl rfl) rfl

/-! ## Claim C7 -/

/-- C7 (counterexample to the claim as stated): one committed master toggle
that flips the stored value writes two audit rows — one from the schema's
`AFTER UPDATE` trigger and one from the service's `logConfigChange` — so the
audit-row count exceeds the committed-operation count. -/
theorem c7_double_audit_counterexample :
    (runToggleOps initialToggleState [masterOffOp]).audits.length = 2 ∧
    countCommitted initialToggleState [masterOffOp] = 1 ∧
    (2 : Nat) ≠ 1 :=
  ⟨rfl, rfl, by decide⟩

/-- C7 (amended): for every sequence of toggle operations on a tenant the
number of audit rows equals the number of committed toggle operations plus
the number of committed operations whose UPDATE actually changed the stored
config row (for those the schema's `AFTER UPDATE` trigger writes one
additional row in the same transaction); rolled-back operations leave no
audit row at all. -/
theorem c7_audit_row_count (ops : List ToggleOp) (st : ToggleState) :
    (runToggleOps st ops).audits.length =
      st.audits.length + countCommitted st ops + countTriggerRows st ops := by
  induction ops generalizing st with
  | nil => simp [runToggleOps, countCommitted, countTriggerRows]
  | cons op rest ih =>
    rw [runToggleOps, countCommitted, countTriggerRows, ih ((applyToggleOp st op).1),
      applyToggleOp_audits st op]
    by_cases h1 : opCommits st op <;> by_cases h2 : opTriggerFires st op <;>
      simp [h1, h2] <;> omega

/-! ## Claim C8 -/

/-- C8 (counterexample to the claim as stated): overriding only a finding's
severity commits the edit but leaves `humanVerified = false` with no
verifier recorded — the claim demands `humanVerified = true` for severity
overrides too. -/
theorem c8_severity_only_counterexample :
    (updateFinding sampleCtx sampleRunDB 0 severityOnlyUpdate).toOption.map
        (fun p => (p.1.severity, p.1.humanVerified, p.1.verifiedBy)) =
      some (some .major, false, none) :=
  rfl

/-- C8 (amended): a committed `updateFinding` stamps `humanVerified = true`
with the caller's identity and the verification time exactly when the update
carries a status override other than `not_assessed` (the characterization of
the guard is part of the statement); whenever the guard is off — no status
field supplied, or a `not_assessed` status override, i.e. severity or
remediation edits alone included — the verification columns are unchanged;
and no `updateFinding` ever touches the parent assessment row, so its score
and aggregate counters are never recomputed. -/
theorem c8_update_finding_verification {ctx : ServiceContext} {db : AssessDB}
    {findingId : Nat} {u : FindingUpdateRequest} {f2 : Finding} {db2 : AssessDB}
    (h : updateFinding ctx db findingId u = .ok (f2, db2)) :
    db2.assessment = db.assessment ∧
    (verificationTriggered u = true ↔ ∃ s, u.status = some s ∧ s ≠ .notAssessed) ∧
    (verificationTriggered u = true →
      f2.humanVerified = true ∧ f2.verifiedBy = some ctx.userId ∧
        f2.verifiedAt = some db.now) ∧
    (verificationTriggered u = false →
      ∀ f, db.findings.find? (fun g => g.id == findingId) = some f →
        f2.humanVerified = f.humanVerified ∧ f2.verifiedBy = f.verifiedBy ∧
          f2.verifiedAt = f.verifiedAt) := by
  have hchar : verificationTriggered u = true ↔ ∃ s, u.status = some s ∧ s ≠ .notAssessed := by
    rcases hst : u.status with _ | s
    · simp [verificationTriggered, hst]
    · simp [verificationTriggered, hst]
  unfold updateFinding at h
  rcases hany : u.hasAnyField <;>
    simp only [hany, Bool.not_false, Bool.not_true, Bool.false_eq_true, if_false, if_true] at h
  · exact absurd h (by simp)
  · rcases hfind : db.findings.find? (fun g => g.id == findingId) with _ | f0
    · simp only [hfind] at h
      exact absurd h (by simp)
    · simp only [hfind] at h
      rw [Except.ok.injEq, Prod.mk.injEq] at h
      obtain ⟨h1, h2⟩ := h
      refine ⟨by rw [← h2], hchar, ?_, ?_⟩
      · intro hv
        rw [← h1]
        simp [hv]
      · intro hvf f hf2
        rw [hfind, Option.some.injEq] at hf2
        subst hf2
        rw [← h1]
        simp [hvf, applySetClauses]

theorem c8_update_finding_verification_witness :
    verifiedSampleDB.assessment = sampleRunDB.assessment ∧
    (verificationTriggered statusOverrideUpdate = true ↔
      ∃ s, statusOverrideUpdate.status = some s ∧ s ≠ .notAssessed) ∧
    (verificationTriggered statusOverrideUpdate = true →
      verifiedSampleFinding.humanVerified = true ∧
      verifiedSampleFinding.verifiedBy = some sampleCtx.userId ∧
        verifiedSampleFinding.verifiedAt = some sampleRunDB.now) ∧
    (verificationTriggered statusOverrideUpdate = false →
      ∀ f, sampleRunDB.findings.find? (fun g => g.id == 0) = some f →
        verifiedSampleFinding.humanVerified = f.humanVerified ∧
          verifiedSampleFinding.verifiedBy = f.verifiedBy ∧
          verifiedSampleFinding.verifiedAt = f.verifiedAt) :=
  @c8_update_finding_verification sampleCtx sampleRunDB 0 statusOverrideUpdate
    verifiedSampleFinding verifiedSampleDB rfl

/-! ## Claim C9 -/

/-- C9: for a fixed control set — fixed `totalAssessed` and fixed partial
count — converting `k` non-compliant controls into compliant ones never
decreases the computed score:
`score(c, nc, p) ≤ score(c + k, nc - k, p)` for every `k ≤ nc`. -/
theorem c9_score_monotone (c nc p k : Nat) (hk : k ≤ nc) :
    overallScoreCalc c nc p ≤ overallScoreCalc (c + k) (nc - k) p := by
  have ht : c + k + (nc - k) + p = c + nc + p := by omega
  simp only [overallScoreCalc]
  rw [ht]
  by_cases h0 : 0 < c + nc + p
  · rw [if_pos h0, if_pos h0]
    apply jsRound_mono
    have htpos : (0 : ℚ) < ((c + nc + p : ℕ) : ℚ) := by exact_mod_cast h0
    have hcc : ((c : ℚ)) ≤ (((c + k : ℕ)) : ℚ) := by
      exact_mod_cast Nat.le_add_right c k
    gcongr
  · rw [if_neg h0, if_neg h0]

theorem c9_score_monotone_witness :
    1 ≤ 2 ∧ overallScoreCalc 1 2 0 ≤ overallScoreCalc (1 + 1) (2 - 1) 0 :=
  ⟨by decide, c9_score_monotone 1 2 0 1 (by decide)⟩

/-! ## Claim C10 -/

/-- C10: the string `"enabled"` is accepted as a feature argument by the
public interface: because `enabled` is a key of every module record,
`toggleModule` with `feature = "enabled"` raises no InvalidFeature error,
sets the module's own enabled flag, and the audit row it logs carries the
`TOGGLE_FEATURE` action rather than `TOGGLE_MODULE`; likewise
`isEnabled(tenant, module, "enabled")` is `true` exactly when master and the
module are both enabled. -/
theorem c10_enabled_feature {st : ToggleState} {cfg : ComplianceConfig}
    (request : ToggleModuleRequest)
    (hc : st.config = some cfg) (hf : request.feature = some "enabled") :
    ∃ cfg2 st2, toggleModule st request = .ok (cfg2, st2) ∧
      (cfg2.moduleConfig.get request.moduleName).enabled = request.enabled ∧
      st2.audits.getLast?.map AuditRow.action = some .TOGGLE_FEATURE ∧
      ∀ (c : ComplianceConfig) (m : ModuleName),
        configIsEnabled c m (some "enabled") =
          (c.masterEnabled && (c.moduleConfig.get m).enabled) := by
  have hT : strTruthy (some "enabled") = true := rfl
  have hK : ∀ m0 : ModuleConfig, m0.hasKey "enabled" = true := fun m0 => rfl
  unfold toggleModule
  simp only [hc, hf, hT, hK, Option.getD_some, Bool.not_true, Bool.false_eq_true,
    if_false, if_true]
  refine ⟨_, _, rfl, ?_, ?_, configIsEnabled_enabled_key⟩
  · simp [commitModuleToggle, ModuleConfigMap.get_set, ModuleConfig.setKey]
  · simp only [commitModuleToggle]
    rw [List.getLast?_concat]
    simp [hf, hT]

theorem c10_enabled_feature_witness :
    ∃ cfg2 st2, toggleModule initialToggleState enabledFeatureReq = .ok (cfg2, st2) ∧
      (cfg2.moduleConfig.get enabledFeatureReq.moduleName).enabled =
        enabledFeatureReq.enabled ∧
      st2.audits.getLast?.map AuditRow.action = some .TOGGLE_FEATURE ∧
      ∀ (c : ComplianceConfig) (m : ModuleName),
        configIsEnabled c m (some "enabled") =
          (c.masterEnabled && (c.moduleConfig.get m).enabled) :=
  c10_enabled_feature enabledFeatureReq rfl rfl
